import Mathlib

/-!
# SENTINEL host core — shallow embedding

A Lean model of the supervisor core of the `sentinel` repository:
the capability manager (`sentinel-host/src/capabilities.rs`), the HITL
bridge (`sentinel-host/src/hitl.rs`) and the host-call handler
(`sentinel-host/src/host_calls.rs`), together with the configuration
types (`sentinel-host/src/config.rs`) and the engine-level host shim
(`sentinel-host/src/engine.rs`).

Modelling conventions:
* Filesystem paths are component lists (`Path := List String`); Rust's
  `Path::starts_with` is component-wise prefix, i.e. `List.isPrefixOf`.
  The filesystem itself is a parameter (`FileSystem`): which paths
  currently canonicalise, to what, and what they contain.
* `SystemTime`/`Duration` are seconds as `Nat`; `Vec<u8>` is `List Nat`.
* URLs and URL patterns are `List Char` (Rust operates on `str`).
* Fallible Rust functions return `Except SentinelErr`.
* The random token id of `generate_token_id` and the guest-visible
  approver interaction (oneshot channel / stdin prompt) are inputs,
  passed explicitly.
-/

namespace Sentinel

/-- A filesystem path as its components (Rust `std::path::Path`). -/
abbrev Path := List String

/-- A byte string (`Vec<u8>`); each entry is one byte. -/
abbrev Bytes := List Nat

/-- A raw character string used for URLs and patterns (Rust `str`). -/
abbrev Str := List Char

/-- `sentinel_shared::RiskLevel`. -/
inductive RiskLevel where
  | Low
  | Medium
  | High
  | Critical
deriving DecidableEq

/-- `CapabilityScope` as constructed and consumed by `sentinel-host`
(`host_calls.rs` builds `FsPath { allowed_pattern, read_only }`,
`NetUrl { allowed_url_pattern, methods }`, `UiObserve`,
`UiDispatch { allowed_event_types }`). -/
inductive CapabilityScope where
  | FsPath (allowed_pattern : Path) (read_only : Bool)
  | NetUrl (allowed_url_pattern : Str) (methods : List Str)
  | UiObserve
  | UiDispatch (allowed_event_types : List String)
deriving DecidableEq

/-- `CapabilityToken` as constructed by `CapabilityManager::mint_token`:
`{ id, scope, issued_at, ttl, revoked }`. -/
structure CapabilityToken where
  id : String
  scope : CapabilityScope
  issued_at : Nat
  ttl : Nat
  revoked : Bool
deriving DecidableEq

/-- Modelled from the spec: `CapabilityToken::is_valid` is called by
`CapabilityManager::validate_token` and `purge_expired` but its body is
not among the sources (the checked-in `sentinel-shared` declares an
older token shape without it); the spec defines a token as valid when
`!revoked && now < issued_at+ttl`. -/
def CapabilityToken.is_valid (t : CapabilityToken) (now : Nat) : Bool :=
  !t.revoked && decide (now < t.issued_at + t.ttl)

/-- The `SentinelError` variants produced by the host core.  Rust renders
most payloads through `format!`; the model carries the datum itself
(e.g. `CapabilityDenied` carries the unknown token id that Rust embeds
in its "Unknown token" message). -/
inductive SentinelErr where
  | CapabilityDenied (token_id : String)
  | TokenRevoked (token_id : String)
  | TokenExpired (token_id : String)
  | PathEscapeAttempt (path : Path)
  | UrlNotWhitelisted (url : Str)
  | NonceReuse
  | GuestError (message : String)
  | ResourceExhausted (resource : String)
  | InvalidSignature
deriving DecidableEq

/-- The state of the operating-system filesystem at call time: which
paths currently canonicalise (exist after symlink/`..` resolution), the
canonical form they resolve to, and file metadata/contents.  Rust's
`Path::canonicalize` fails exactly on paths that do not exist. -/
structure FileSystem where
  present : Path → Bool
  resolve : Path → Path
  size : Path → Nat
  content : Path → Bytes
  entries : Path → List String

/-- `Path::canonicalize`: the canonical form when the path exists,
an error (here `none`) otherwise. -/
def canonicalize (fs : FileSystem) (p : Path) : Option Path :=
  if fs.present p then some (fs.resolve p) else none

/-- `dir.canonicalize().unwrap_or_else(|_| dir.clone())` — the form used
for configured allow-list directories. -/
def canonicalizeOr (fs : FileSystem) (p : Path) : Path :=
  (canonicalize fs p).getD p

/-- `requested.parent().unwrap_or(Path::new("."))`: drop the leaf
component; an empty path has no parent and falls back to `"."`. -/
def parentOr (p : Path) : Path :=
  if p.isEmpty then ["."] else p.dropLast

/-- `target.file_name().unwrap_or_default()`. -/
def fileNameOf (p : Path) : String :=
  p.getLast?.getD ""

/-- `url_matches_pattern` (capabilities.rs): a pattern with a trailing
`*` matches any URL starting with the pattern minus the `*`; otherwise
matching is literal equality. -/
def url_matches_pattern (url pat : Str) : Bool :=
  if pat.getLast? = some '*' then
    List.isPrefixOf pat.dropLast url
  else
    url == pat

/-- Configuration: filesystem constraints.  `allowed_write_dirs` is read
by `host_calls.rs` and assigned in `main.rs`; the checked-in `config.rs`
omits its field declaration. -/
structure FsConfig where
  allowed_read_dirs : List Path
  allowed_write_dirs : List Path
  max_read_size : Nat

/-- Configuration: network constraints (`request_timeout` omitted — the
modelled operations never read it). -/
structure NetConfig where
  url_whitelist : List Str
  allowed_methods : List Str

/-- `ApprovalThreshold` (config.rs). -/
inductive ApprovalThreshold where
  | NoneLevel
  | High
  | Critical
  | All
deriving DecidableEq

/-- `HitlConfig` (config.rs); the timeout is in seconds. -/
structure HitlConfig where
  approval_threshold : ApprovalThreshold
  approval_timeout : Nat

/-- `SentinelConfig`, restricted to the policy fields the modelled core
reads (engine/LLM limits are consumed by the Wasm engine, out of
scope). -/
structure SentinelConfig where
  filesystem : FsConfig
  network : NetConfig
  hitl : HitlConfig

/-- The `CapabilityManager`'s mutable state plus its configuration:
the token table and the used-nonce set (assoc list / list model of the
`HashMap`/`HashSet`).  `HostCallHandler` holds a clone of the same
configuration (`engine::boot` passes one `config` to both), so the model
keeps a single copy here. -/
structure CMState where
  tokens : List (String × CapabilityToken)
  used_nonces : List Bytes
  config : SentinelConfig

/-- The resource string handed to `validate_token`, tagged by how the
call site means it (Rust passes a plain `&str`: a filesystem path from
`fs_read`/`fs_write`/`fs_list_dir`, a URL from `net_request`, or an
opaque `ui:...` string from the UI calls). -/
inductive Resource where
  | fsPath (p : Path)
  | url (u : Str)
  | uiStr (s : String)
deriving DecidableEq

/-- `CapabilityManager::check_resource_against_scope`: for `FsPath`
scopes canonicalise the resource (failure ⇒ `PathEscapeAttempt`) and
require the scope pattern to be a component-prefix of the canonical
form; for `NetUrl` scopes require only the URL pattern match; every
other scope accepts (`_ => {}`).  A resource string of the wrong kind
for the scope cannot canonicalise as a path / match a URL pattern and is
rejected the same way. -/
def check_resource_against_scope (fs : FileSystem)
    (scope : CapabilityScope) (resource : Resource) :
    Except SentinelErr Unit :=
  match scope with
  | .FsPath allowed_pattern _ =>
    match resource with
    | .fsPath p =>
      match canonicalize fs p with
      | none => .error (.PathEscapeAttempt p)
      | some resource_path =>
        if List.isPrefixOf allowed_pattern resource_path then .ok ()
        else .error (.PathEscapeAttempt p)
    | .url u => .error (.PathEscapeAttempt [u.asString])
    | .uiStr s => .error (.PathEscapeAttempt [s])
  | .NetUrl allowed_url_pattern _ =>
    match resource with
    | .url u =>
      if url_matches_pattern u allowed_url_pattern then .ok ()
      else .error (.UrlNotWhitelisted u)
    | .fsPath p => .error (.UrlNotWhitelisted (String.join p).toList)
    | .uiStr s => .error (.UrlNotWhitelisted s.toList)
  | .UiObserve => .ok ()
  | .UiDispatch _ => .ok ()

/-- `CapabilityManager::validate_token`: table lookup (failure ⇒
`CapabilityDenied`, the "Unknown token" message), then the revocation
flag, then `is_valid` (expiry), then the scope containment check. -/
def validate_token (st : CMState) (fs : FileSystem) (now : Nat)
    (token_id : String) (requested_resource : Resource) :
    Except SentinelErr CapabilityToken :=
  match st.tokens.lookup token_id with
  | none => .error (.CapabilityDenied token_id)
  | some token =>
    if token.revoked then .error (.TokenRevoked token_id)
    else if !token.is_valid now then .error (.TokenExpired token_id)
    else
      match check_resource_against_scope fs token.scope requested_resource with
      | .ok () => .ok token
      | .error e => .error e

/-- `CapabilityManager::validate_scope` (mint-time policy check).  Note
the source checks every `FsPath` pattern — including write scopes —
against `allowed_read_dirs`. -/
def validate_scope (config : SentinelConfig) (fs : FileSystem)
    (scope : CapabilityScope) : Except SentinelErr Unit :=
  match scope with
  | .FsPath allowed_pattern _ =>
    if config.filesystem.allowed_read_dirs.any
        (fun dir => List.isPrefixOf (canonicalizeOr fs dir) allowed_pattern) then
      .ok ()
    else .error (.PathEscapeAttempt allowed_pattern)
  | .NetUrl allowed_url_pattern _ =>
    if config.network.url_whitelist.any
        (fun wl => url_matches_pattern allowed_url_pattern wl) then
      .ok ()
    else .error (.UrlNotWhitelisted allowed_url_pattern)
  | .UiObserve => .ok ()
  | .UiDispatch _ => .ok ()

/-- `CapabilityManager::mint_token`; `fresh_id` stands for the random
id from `generate_token_id`, and `now` for `SystemTime::now()`.  The
default TTL is 300 seconds. -/
def mint_token (st : CMState) (fs : FileSystem) (now : Nat)
    (fresh_id : String) (scope : CapabilityScope) :
    Except SentinelErr (CapabilityToken × CMState) :=
  match validate_scope st.config fs scope with
  | .error e => .error e
  | .ok () =>
    let token : CapabilityToken :=
      { id := fresh_id, scope := scope, issued_at := now, ttl := 300,
        revoked := false }
    .ok (token, { st with tokens := (token.id, token) :: st.tokens })

/-- `CapabilityManager::revoke_token`: mark-revoked if present, report
whether a token was found. -/
def revoke_token (st : CMState) (token_id : String) : Bool × CMState :=
  match st.tokens.lookup token_id with
  | none => (false, st)
  | some _ =>
    (true,
     { st with
        tokens := st.tokens.map (fun e =>
          if e.1 = token_id then (e.1, { e.2 with revoked := true }) else e) })

/-- `CapabilityManager::record_nonce`: reject a nonce already in the
used set (`HashSet::insert` returning `false`), record it otherwise. -/
def record_nonce (st : CMState) (nonce : Bytes) :
    Except SentinelErr CMState :=
  if st.used_nonces.contains nonce then .error .NonceReuse
  else .ok { st with used_nonces := nonce :: st.used_nonces }

/-- `CapabilityManager::purge_expired`: drop tokens that are no longer
valid, returning the number removed. -/
def purge_expired (st : CMState) (now : Nat) : Nat × CMState :=
  let kept := st.tokens.filter (fun e => e.2.is_valid now)
  (st.tokens.length - kept.length, { st with tokens := kept })

/-! ## Host-call handler (`host_calls.rs`)

Each operation takes the capability-manager state, the filesystem, the
clock and its Rust arguments; request operations also take the fresh
token id minted inside.  The configuration lives in `CMState.config`
(the handler's own copy is the same value). -/

/-- `HostCallHandler::canonicalize_and_validate_read_path`: canonicalise
the resource itself (missing path ⇒ `PathEscapeAttempt`) and require it
to lie under some `allowed_read_dirs` entry. -/
def canonicalize_and_validate_read_path (config : SentinelConfig)
    (fs : FileSystem) (path : Path) : Except SentinelErr Path :=
  match canonicalize fs path with
  | none => .error (.PathEscapeAttempt path)
  | some canonical =>
    if config.filesystem.allowed_read_dirs.any
        (fun dir => List.isPrefixOf (canonicalizeOr fs dir) canonical) then
      .ok canonical
    else .error (.PathEscapeAttempt canonical)

/-- `HostCallHandler::canonicalize_and_validate_write_path`:
canonicalise the *parent* directory, require it to lie under some
`allowed_write_dirs` entry, and join the leaf filename back on — the
target file itself need not exist. -/
def canonicalize_and_validate_write_path (config : SentinelConfig)
    (fs : FileSystem) (path : Path) : Except SentinelErr Path :=
  let parent := parentOr path
  match canonicalize fs parent with
  | none => .error (.PathEscapeAttempt path)
  | some parent_canon =>
    if config.filesystem.allowed_write_dirs.any
        (fun dir => List.isPrefixOf (canonicalizeOr fs dir) parent_canon) then
      .ok (parent_canon ++ [fileNameOf path])
    else .error (.PathEscapeAttempt parent_canon)

/-- `HostCallHandler::request_fs_read`: validate the path, mint a
read-only `FsPath` token over its canonical form, return the token id
(justification is only logged). -/
def request_fs_read (st : CMState) (fs : FileSystem) (now : Nat)
    (fresh_id : String) (path : Path) :
    Except SentinelErr (String × CMState) :=
  match canonicalize_and_validate_read_path st.config fs path with
  | .error e => .error e
  | .ok canonical =>
    match mint_token st fs now fresh_id (.FsPath canonical true) with
    | .error e => .error e
    | .ok (token, st') => .ok (token.id, st')

/-- `HostCallHandler::request_fs_write`: validate the write path (via
its parent), mint a writable `FsPath` token over the joined canonical
form, return the token id. -/
def request_fs_write (st : CMState) (fs : FileSystem) (now : Nat)
    (fresh_id : String) (path : Path) :
    Except SentinelErr (String × CMState) :=
  match canonicalize_and_validate_write_path st.config fs path with
  | .error e => .error e
  | .ok canonical =>
    match mint_token st fs now fresh_id (.FsPath canonical false) with
    | .error e => .error e
    | .ok (token, st') => .ok (token.id, st')

/-- `HostCallHandler::request_net_outbound`: mint a `NetUrl` token for
the requested URL with the single requested method. -/
def request_net_outbound (st : CMState) (fs : FileSystem) (now : Nat)
    (fresh_id : String) (url : Str) (method : Str) :
    Except SentinelErr (String × CMState) :=
  match mint_token st fs now fresh_id (.NetUrl url [method]) with
  | .error e => .error e
  | .ok (token, st') => .ok (token.id, st')

/-- `HostCallHandler::release_capability` — revocation. -/
def release_capability (st : CMState) (token_id : String) :
    Bool × CMState :=
  revoke_token st token_id

/-- `HostCallHandler::fs_read`: validate the token for the path,
re-canonicalise and re-check the path against `allowed_read_dirs`,
enforce `max_read_size` against the file's metadata, and read the
canonical path (the returned bytes model `tokio::fs::read`). -/
def fs_read (st : CMState) (fs : FileSystem) (now : Nat)
    (token_id : String) (path : Path) : Except SentinelErr Bytes :=
  match validate_token st fs now token_id (.fsPath path) with
  | .error e => .error e
  | .ok _ =>
    match canonicalize_and_validate_read_path st.config fs path with
    | .error e => .error e
    | .ok canonical =>
      if st.config.filesystem.max_read_size < fs.size canonical then
        .error (.ResourceExhausted "File size exceeds limit")
      else .ok (fs.content canonical)

/-- `HostCallHandler::fs_write`: validate the token for the path, then
(inline, mirroring the helper) canonicalise the parent (failure ⇒
`GuestError`), check it against `allowed_write_dirs`, and write to the
canonical parent joined with the leaf.  The result is the path actually
written (Rust performs `tokio::fs::write(write_path, data)` and returns
`true`).  No manifest or approval state is consulted. -/
def fs_write (st : CMState) (fs : FileSystem) (now : Nat)
    (token_id : String) (path : Path) (_data : Bytes) :
    Except SentinelErr Path :=
  match validate_token st fs now token_id (.fsPath path) with
  | .error e => .error e
  | .ok _ =>
    let parent := parentOr path
    match canonicalize fs parent with
    | none => .error (.GuestError "Cannot resolve write directory")
    | some parent_canon =>
      if st.config.filesystem.allowed_write_dirs.any
          (fun dir => List.isPrefixOf (canonicalizeOr fs dir) parent_canon) then
        .ok (parent_canon ++ [fileNameOf path])
      else .error (.PathEscapeAttempt path)

/-- `HostCallHandler::fs_list_dir`: validate the token, re-canonicalise
and re-check against `allowed_read_dirs`, list the canonical path. -/
def fs_list_dir (st : CMState) (fs : FileSystem) (now : Nat)
    (token_id : String) (path : Path) :
    Except SentinelErr (List String) :=
  match validate_token st fs now token_id (.fsPath path) with
  | .error e => .error e
  | .ok _ =>
    match canonicalize_and_validate_read_path st.config fs path with
    | .error e => .error e
    | .ok canonical => .ok (fs.entries canonical)

/-- `HostCallHandler::net_request`: validates the token against the URL
only (the method and headers are not checked here) and returns the stub
response; the model returns the validated URL. -/
def net_request (st : CMState) (fs : FileSystem) (now : Nat)
    (token_id : String) (url : Str) (_method : Str) :
    Except SentinelErr Str :=
  match validate_token st fs now token_id (.url url) with
  | .error e => .error e
  | .ok _ => .ok url

/-! ## HITL bridge (`hitl.rs`)

The external `ed25519_dalek` scheme is out of the specified core; it is
modelled as an ideal deterministic signature: a signature records the
key it was made with and the exact bytes it signs, and verification
checks both.  The host keypair is a single abstract key value. -/

/-- An abstract signing/verifying key (the Ed25519 keypair generated at
bridge construction; signing and verifying halves correspond). -/
abbrev EdKey := Nat

/-- An ideal signature: made by `key` over exactly `msg`. -/
structure EdSignature where
  key : EdKey
  msg : Bytes
deriving DecidableEq

/-- `SigningKey::sign`. -/
def ed_sign (k : EdKey) (b : Bytes) : EdSignature := ⟨k, b⟩

/-- `VerifyingKey::verify`: accepts exactly the signature made with the
corresponding key over exactly these bytes. -/
def ed_verify (k : EdKey) (b : Bytes) (s : EdSignature) : Bool :=
  s.key == k && s.msg == b

/-- `sentinel_shared::ExecutionManifest` as used by the host (the
`HashMap` parameters become an association list in iteration order; the
nonce is 32 bytes). -/
structure ExecutionManifest where
  id : String
  action_description : String
  risk_level : RiskLevel
  parameters : List (String × String)
  capability_token_id : Option String
  created_at : Nat
  nonce : Bytes
deriving DecidableEq

/-- One byte per risk level, for the encoding. -/
def riskByte : RiskLevel → Nat
  | .Low => 0
  | .Medium => 1
  | .High => 2
  | .Critical => 3

/-- String bytes for the encoding. -/
def encodeStr (s : String) : Bytes := s.toList.map Char.toNat

/-- `serde_json::to_vec(manifest)`: a deterministic serialisation of the
manifest's fields in declaration order — the single canonical encoding
used by both `sign_manifest` and `verify_signature`. -/
def encodeManifest (m : ExecutionManifest) : Bytes :=
  encodeStr m.id ++ encodeStr m.action_description ++ [riskByte m.risk_level]
    ++ m.parameters.foldr (fun kv acc => encodeStr kv.1 ++ encodeStr kv.2 ++ acc) []
    ++ (match m.capability_token_id with
        | none => [0]
        | some s => 1 :: encodeStr s)
    ++ [m.created_at] ++ m.nonce

/-- `ManifestSignature` as constructed by `HitlBridge::sign_manifest`:
`{ manifest_id, signature_bytes, signer_public_key }` (its struct
declaration is absent from the checked-in `sentinel-shared`; the fields
are those named at the construction site). -/
structure ManifestSignature where
  manifest_id : String
  signature_bytes : EdSignature
  signer_public_key : EdKey
deriving DecidableEq

/-- `hitl::ApprovalStatus`. -/
inductive ApprovalStatus where
  | Pending
  | Approved (sig : ManifestSignature)
  | Rejected (reason : String)
  | TimedOut
deriving DecidableEq

/-- The `HitlBridge` state: the keypair and the manifest table (assoc
list standing for the `HashMap`; insertion replaces).  The bridge holds
no configuration — neither `approval_threshold` nor `approval_timeout`
reaches it. -/
structure HitlState where
  key : EdKey
  manifests : List (String × ExecutionManifest × ApprovalStatus)

/-- `HashMap::insert` on the manifest table. -/
def insertManifest (ms : List (String × ExecutionManifest × ApprovalStatus))
    (id : String) (entry : ExecutionManifest × ApprovalStatus) :
    List (String × ExecutionManifest × ApprovalStatus) :=
  (id, entry) :: ms.filter (fun e => e.1 ≠ id)

/-- `manifests.get_mut(id).map(|(_, s)| *s = status)` — overwrite the
stored status of `id`, if present. -/
def setStatus (ms : List (String × ExecutionManifest × ApprovalStatus))
    (id : String) (status : ApprovalStatus) :
    List (String × ExecutionManifest × ApprovalStatus) :=
  ms.map (fun e => if e.1 = id then (e.1, e.2.1, status) else e)

/-- `HitlBridge::sign_manifest`: sign the canonical encoding with the
host key (the `serde_json` serialisation cannot fail for this type, so
the model is total). -/
def sign_manifest (st : HitlState) (m : ExecutionManifest) :
    ManifestSignature :=
  { manifest_id := m.id,
    signature_bytes := ed_sign st.key (encodeManifest m),
    signer_public_key := st.key }

/-- `HitlBridge::verify_signature`: recompute the canonical encoding and
verify against the key embedded in the signature record (the byte-length
conversions always succeed in the abstract model). -/
def verify_signature (m : ExecutionManifest) (s : ManifestSignature) :
    Except SentinelErr Bool :=
  .ok (ed_verify s.signer_public_key (encodeManifest m) s.signature_bytes)

/-- `HitlBridge::resolve_manifest`: look the manifest up (any current
status), then overwrite its status with `Approved(sig)` or a rejection
and return the new status; an unknown id is a `GuestError`. -/
def resolve_manifest (st : HitlState) (manifest_id : String)
    (approved : Bool) : HitlState × Except SentinelErr ApprovalStatus :=
  match st.manifests.lookup manifest_id with
  | none => (st, .error (.GuestError "Manifest not found"))
  | some (m, _) =>
    if approved then
      let status := ApprovalStatus.Approved (sign_manifest st m)
      ({ st with manifests := setStatus st.manifests manifest_id status },
       .ok status)
    else
      let status := ApprovalStatus.Rejected "User rejected via UI"
      ({ st with manifests := setStatus st.manifests manifest_id status },
       .ok status)

/-- How the approver interaction inside `submit_manifest` resolves:
which mode is active (a registered callback, or the terminal prompt)
and what the wait observes, with `elapsed` the seconds until the answer
arrives. -/
inductive ApproverOutcome where
  | callbackAnswer (answer : Bool) (elapsed : Nat)
  | callbackDropped (elapsed : Nat)
  | callbackNever
  | terminalAnswer (answer : Bool) (elapsed : Nat)
deriving DecidableEq

/-- The window `tokio::time::timeout` is given around the callback
receiver in `submit_manifest`: the literal 300 seconds. -/
def callbackTimeoutWindow : Nat := 300

/-- `HitlBridge::submit_manifest`: insert the manifest as `Pending`;
in callback mode wait on the oneshot receiver under the hard-coded
300-second window (a resolved `false` or a dropped sender rejects, a
timeout stores and returns `TimedOut`); in terminal mode block on the
stdin prompt with no timeout.  An approval signs the manifest and
stores/returns `Approved`; otherwise `Rejected` is stored/returned.
Neither the nonce set nor any configuration is consulted. -/
def submit_manifest (st : HitlState) (m : ExecutionManifest)
    (outcome : ApproverOutcome) : HitlState × ApprovalStatus :=
  let st1 : HitlState :=
    { st with manifests := insertManifest st.manifests m.id (m, .Pending) }
  let finish := fun (approved : Bool) =>
    if approved then
      let status := ApprovalStatus.Approved (sign_manifest st1 m)
      ({ st1 with manifests := setStatus st1.manifests m.id status }, status)
    else
      let status := ApprovalStatus.Rejected "User rejected the action"
      ({ st1 with manifests := setStatus st1.manifests m.id status }, status)
  let timedOut :=
    ({ st1 with manifests := setStatus st1.manifests m.id .TimedOut },
     ApprovalStatus.TimedOut)
  match outcome with
  | .callbackAnswer answer elapsed =>
    if elapsed < callbackTimeoutWindow then finish answer else timedOut
  | .callbackDropped elapsed =>
    if elapsed < callbackTimeoutWindow then finish false else timedOut
  | .callbackNever => timedOut
  | .terminalAnswer answer _ => finish answer

/-- `HitlBridge::check_status`. -/
def check_status (st : HitlState) (manifest_id : String) :
    Option ApprovalStatus :=
  (st.manifests.lookup manifest_id).map (fun e => e.2)

/-- `HitlBridge::public_key`. -/
def public_key (st : HitlState) : EdKey := st.key

/-- The manifest built by the engine-level host shim
(`sentinel::agent::hitl::Host::submit_manifest` in engine.rs) before it
calls `HitlBridge::submit_manifest`: the guest-supplied fields are
copied, `capability_token_id` is forced to `None`, `created_at` to the
current time, and the nonce to 32 zero bytes. -/
def engineManifest (id action_description : String) (risk : RiskLevel)
    (parameters : List (String × String)) (now : Nat) :
    ExecutionManifest :=
  { id := id, action_description := action_description, risk_level := risk,
    parameters := parameters, capability_token_id := none,
    created_at := now, nonce := List.replicate 32 0 }

/-- Flip one byte of a byte string (complement the byte at index `i`). -/
def flipByte (i : Nat) (b : Bytes) : Bytes :=
  b.set i ((b.getD i 0) ^^^ 255)

/-! ## Concrete fixtures used by the witness and evaluation theorems -/

/-- A small policy: reads under `tmp`, writes under `tmp/out`,
10-byte read limit, default HITL settings (`High` threshold, 300 s). -/
def cfg1 : SentinelConfig :=
  { filesystem :=
      { allowed_read_dirs := [["tmp"]],
        allowed_write_dirs := [["tmp", "out"]],
        max_read_size := 10 },
    network :=
      { url_whitelist := ["https://api.example.com/*".toList],
        allowed_methods := ["GET".toList] },
    hitl := { approval_threshold := .High, approval_timeout := 300 } }

/-- A filesystem in which `tmp`, `tmp/out` and the file `tmp/out/r.md`
(7 bytes of content) exist; every present path is already canonical. -/
def fs1 : FileSystem :=
  { present := fun p =>
      p ∈ [(["tmp"] : Path), ["tmp", "out"], ["tmp", "out", "r.md"]],
    resolve := id,
    size := fun _ => 7,
    content := fun _ => [104, 101, 108, 108, 111, 33, 10],
    entries := fun _ => ["r.md"] }

/-- A filesystem in which only the directories `tmp` and `tmp/out`
exist — the write target `tmp/out/new.txt` does not exist yet. -/
def fs2 : FileSystem :=
  { present := fun p => p ∈ [(["tmp"] : Path), ["tmp", "out"]],
    resolve := id,
    size := fun _ => 0,
    content := fun _ => [],
    entries := fun _ => [] }

/-- An empty capability-manager state under `cfg1`. -/
def st0 : CMState := ⟨[], [], cfg1⟩

/-- The token `request_fs_write st0 fs1 0 "tok1" ["tmp","out","r.md"]`
mints. -/
def c1_token : CapabilityToken :=
  ⟨"tok1", .FsPath ["tmp", "out", "r.md"] false, 0, 300, false⟩

/-- The capability-manager state after that request. -/
def c1_st1 : CMState := ⟨[("tok1", c1_token)], [], cfg1⟩

/-- The token minted for the not-yet-existing target `tmp/out/new.txt`. -/
def c6_token : CapabilityToken :=
  ⟨"tok6", .FsPath ["tmp", "out", "new.txt"] false, 0, 300, false⟩

/-- The capability-manager state after requesting that write. -/
def c6_st1 : CMState := ⟨[("tok6", c6_token)], [], cfg1⟩

/-- A network token whose scope allows *no* method at all
(`methods := []`) over the whitelisted API prefix. -/
def c7_token : CapabilityToken :=
  ⟨"t1", .NetUrl "https://api.example.com/*".toList [], 0, 300, false⟩

/-- A capability-manager state holding only `c7_token`. -/
def c7_st : CMState := ⟨[("t1", c7_token)], [], cfg1⟩

/-- A read-only token over the existing file `tmp/out/r.md`. -/
def c10_token : CapabilityToken :=
  ⟨"r1", .FsPath ["tmp", "out", "r.md"] true, 0, 300, false⟩

/-- A read-only token over the directory `tmp/out`. -/
def c10_dirToken : CapabilityToken :=
  ⟨"r2", .FsPath ["tmp", "out"] true, 0, 300, false⟩

/-- A capability-manager state holding the two read tokens. -/
def c10_st : CMState :=
  ⟨[("r1", c10_token), ("r2", c10_dirToken)], [], cfg1⟩

/-- An empty HITL bridge whose keypair is the abstract key `7`. -/
def hs0 : HitlState := ⟨7, []⟩

/-- First manifest submitted through the engine shim at time 0. -/
def c2_m1 : ExecutionManifest := engineManifest "m1" "write report a" .High [] 0

/-- Second manifest submitted through the engine shim at time 1 — every
field that can differ does, except the nonce the shim fixes. -/
def c2_m2 : ExecutionManifest :=
  engineManifest "m2" "write report b" .Critical [("file", "b.md")] 1

/-- The bridge state after the first submission is approved. -/
def c2_step1 : HitlState × ApprovalStatus :=
  submit_manifest hs0 c2_m1 (.callbackAnswer true 0)

/-- The result of the second submission, reusing the same nonce. -/
def c2_step2 : HitlState × ApprovalStatus :=
  submit_manifest c2_step1.1 c2_m2 (.callbackAnswer true 0)

/-- A Low-risk manifest. -/
def c3_mLow : ExecutionManifest := engineManifest "m3" "list files" .Low [] 0

/-- A configuration whose approval timeout is 10 seconds. -/
def cfgT : SentinelConfig :=
  { cfg1 with hitl := { approval_threshold := .All, approval_timeout := 10 } }

/-- A manifest for the timeout experiment. -/
def c4_m : ExecutionManifest := engineManifest "m4" "risky action" .High [] 0

/-- A bridge state in which manifest `m1` already sits in the terminal
`Rejected` state. -/
def c5_st : HitlState := ⟨7, [("m1", c2_m1, .Rejected "no")]⟩

/-- A manifest used by the signature round-trip witness. -/
def c9_m : ExecutionManifest :=
  { id := "m9", action_description := "sign me", risk_level := .Medium,
    parameters := [("k", "v")], capability_token_id := some "tok",
    created_at := 5, nonce := List.replicate 32 1 }

/-! ## Theorems -/

/-- C1: a successful `fs_write` is claimed to require an `Approved`
`ManifestSignature` covering its path.  In the source, `fs_write`
performs only token validation and the `allowed_write_dirs` check —
neither `request_fs_write` nor `fs_write` ever consults the HITL bridge
(their inputs contain no manifest or approval state at all).  Here a
complete request-then-write run succeeds although no manifest was ever
submitted, approved or signed anywhere in the system. -/
theorem fs_write_no_manifest_gate :
    request_fs_write st0 fs1 0 "tok1" ["tmp", "out", "r.md"] =
      .ok ("tok1", c1_st1) ∧
    fs_write c1_st1 fs1 1 "tok1" ["tmp", "out", "r.md"] [104] =
      .ok ["tmp", "out", "r.md"] := by
  constructor <;> rfl

/-- C2: the second of two `submit_manifest` calls with the same nonce is
claimed to fail with `NonceReuse`.  In the source no submission path
touches the nonce set: `HitlBridge::submit_manifest` resolves the second
manifest normally (its return type has no error case for nonces), the
engine shim fixes every manifest's nonce to 32 zero bytes, and
`CapabilityManager::record_nonce` — which does reject duplicates — has
no caller.  `c2_m1` and `c2_m2` share a nonce, yet both submissions
resolve to `Approved`. -/
theorem submit_manifest_nonce_reuse_unchecked :
    c2_m1.nonce = c2_m2.nonce ∧
    c2_step1.2 = .Approved (sign_manifest hs0 c2_m1) ∧
    c2_step2.2 = .Approved (sign_manifest hs0 c2_m2) ∧
    record_nonce ⟨[], [c2_m1.nonce], cfg1⟩ c2_m2.nonce =
      .error .NonceReuse ∧
    (∀ id d r ps now, (engineManifest id d r ps now).nonce =
      List.replicate 32 0) := by
  refine ⟨rfl, rfl, rfl, rfl, fun _ _ _ _ _ => rfl⟩

/-- C3: `submit_manifest` is claimed to consult
`HostConfig.approval_threshold` and auto-approve a Low-risk manifest
when the threshold is `High`.  In the source `HitlBridge` holds no
configuration and `submit_manifest` unconditionally invokes the approver
(callback or terminal): under `cfg1` (threshold `High`), a Low-risk
manifest whose approver answers `false` resolves to `Rejected` — it was
neither auto-approved nor spared the prompt — and the outcome tracks the
approver's answer alone. -/
theorem submit_manifest_ignores_threshold :
    cfg1.hitl.approval_threshold = .High ∧
    c3_mLow.risk_level = .Low ∧
    (submit_manifest hs0 c3_mLow (.callbackAnswer false 0)).2 =
      .Rejected "User rejected the action" ∧
    (submit_manifest hs0 c3_mLow (.callbackAnswer true 0)).2 =
      .Approved (sign_manifest hs0 c3_mLow) := by
  refine ⟨rfl, rfl, rfl, rfl⟩

/-- C4: a `submit_manifest` wait exceeding the configured
`approval_timeout` is claimed to resolve to `TimedOut` in both modes.
In the source the bridge never sees the configuration: callback mode
waits under the hard-coded 300-second window — here an answer arriving
after 200 seconds, far beyond the configured 10-second timeout of
`cfgT`, is still `Approved` — and terminal mode blocks on stdin with no
timeout at all, so no terminal-mode submission ever resolves to
`TimedOut`. -/
theorem submit_manifest_timeout_not_configured :
    cfgT.hitl.approval_timeout = 10 ∧
    cfgT.hitl.approval_timeout < 200 ∧
    (submit_manifest hs0 c4_m (.callbackAnswer true 200)).2 =
      .Approved (sign_manifest hs0 c4_m) ∧
    (∀ st m answer elapsed,
      (submit_manifest st m (.terminalAnswer answer elapsed)).2 ≠
        .TimedOut) := by
  refine ⟨rfl, by decide, rfl, ?_⟩
  intro st m answer elapsed
  cases answer <;> simp [submit_manifest]

/-- C6: `fs_write` with a valid token to a target that does not yet
exist inside an allowed write directory is claimed to succeed (only the
parent must canonicalise).  The request path and the write-path helper
do canonicalise only the parent — both succeed below for the missing
`tmp/out/new.txt` — but `fs_write` first calls `validate_token`, whose
`check_resource_against_scope` canonicalises the *resource itself* for
every `FsPath` scope; the missing target fails to canonicalise and the
write is rejected as `PathEscapeAttempt`. -/
theorem fs_write_missing_target_rejected :
    canonicalize fs2 ["tmp", "out", "new.txt"] = none ∧
    canonicalize_and_validate_write_path cfg1 fs2 ["tmp", "out", "new.txt"] =
      .ok ["tmp", "out", "new.txt"] ∧
    request_fs_write st0 fs2 0 "tok6" ["tmp", "out", "new.txt"] =
      .ok ("tok6", c6_st1) ∧
    fs_write c6_st1 fs2 1 "tok6" ["tmp", "out", "new.txt"] [104] =
      .error (.PathEscapeAttempt ["tmp", "out", "new.txt"]) := by
  refine ⟨rfl, rfl, rfl, rfl⟩

/-- Looking up a key after `setStatus` on that key rewrites the stored
status and keeps the stored manifest. -/
theorem lookup_setStatus (ms : List (String × ExecutionManifest × ApprovalStatus))
    (id : String) (s : ApprovalStatus) :
    List.lookup id (setStatus ms id s) =
      (List.lookup id ms).map (fun e => (e.1, s)) := by
  induction ms with
  | nil => rfl
  | cons hd tl ih =>
    obtain ⟨k, m, st⟩ := hd
    by_cases h : k = id
    · subst h
      simp [setStatus, List.lookup_cons]
    · simp only [setStatus, List.map_cons, if_neg h, List.lookup_cons] at *
      have hne : (id == k) = false := by
        exact beq_eq_false_iff_ne.mpr (fun hc => h hc.symm)
      simp [hne, ih, setStatus]

/-- C5 counterexample: a manifest already in the terminal `Rejected`
state is flipped to `Approved` by a later `resolve_manifest` — the
lookup in `resolve_manifest` ignores the current status entirely, so
terminal states are not immutable. -/
theorem resolve_overwrites_terminal_status :
    check_status c5_st "m1" = some (.Rejected "no") ∧
    (resolve_manifest c5_st "m1" true).2 =
      .ok (.Approved (sign_manifest c5_st c2_m1)) ∧
    check_status (resolve_manifest c5_st "m1" true).1 "m1" =
      some (.Approved (sign_manifest c5_st c2_m1)) := by
  refine ⟨rfl, rfl, rfl⟩

/-- C5 as amended: `submit_manifest` drives a manifest from the inserted
`Pending` entry to a stored terminal status (`Approved`, `Rejected` or
`TimedOut`) that it also returns — but terminal states are mutable:
`resolve_manifest` overwrites the status of any known manifest,
whatever its current status `s0`, with `Approved(sig)` or `Rejected`
according to its flag. -/
theorem manifest_status_transitions :
    (∀ st id approved m s0, List.lookup id st.manifests = some (m, s0) →
       (resolve_manifest st id approved).2 =
         .ok (if approved then ApprovalStatus.Approved (sign_manifest st m)
              else .Rejected "User rejected via UI") ∧
       check_status (resolve_manifest st id approved).1 id =
         some (if approved then ApprovalStatus.Approved (sign_manifest st m)
               else .Rejected "User rejected via UI")) ∧
    (∀ st m outcome,
       (submit_manifest st m outcome).2 ≠ .Pending ∧
       check_status (submit_manifest st m outcome).1 m.id =
         some (submit_manifest st m outcome).2) := by
  constructor
  · intro st id approved m s0 h
    cases approved <;>
      simp [resolve_manifest, h, check_status, lookup_setStatus]
  · intro st m outcome
    cases outcome with
    | callbackAnswer answer elapsed =>
      by_cases he : elapsed < callbackTimeoutWindow <;> cases answer <;>
        simp [submit_manifest, he, check_status, lookup_setStatus,
          insertManifest, List.lookup_cons]
    | callbackDropped elapsed =>
      by_cases he : elapsed < callbackTimeoutWindow <;>
        simp [submit_manifest, he, check_status, lookup_setStatus,
          insertManifest, List.lookup_cons]
    | callbackNever =>
      simp [submit_manifest, check_status, lookup_setStatus,
        insertManifest, List.lookup_cons]
    | terminalAnswer answer elapsed =>
      cases answer <;>
        simp [submit_manifest, check_status, lookup_setStatus,
          insertManifest, List.lookup_cons]

/-- C5 witness: the amended transition theorem applied to the concrete
bridge state `c5_st` (manifest `m1` currently `Rejected "no"`). -/
theorem manifest_status_transitions_witness :
    (resolve_manifest c5_st "m1" false).2 =
      .ok (.Rejected "User rejected via UI") ∧
    check_status (resolve_manifest c5_st "m1" false).1 "m1" =
      some (.Rejected "User rejected via UI") := by
  have h := manifest_status_transitions.1 c5_st "m1" false c2_m1
    (.Rejected "no") rfl
  simpa using h

/-- C7 counterexample: the claim requires a `NetUrl` containment check
to demand that "the method is allowed", but `validate_token` receives no
method and `check_resource_against_scope` never reads the scope's
`methods` list.  The token `c7_token` allows *no* method at all
(`methods = []`), yet validation of a matching URL succeeds. -/
theorem validate_token_ignores_methods :
    c7_token.scope = .NetUrl "https://api.example.com/*".toList [] ∧
    validate_token c7_st fs2 5 "t1"
      (.url "https://api.example.com/v1/x".toList) = .ok c7_token := by
  refine ⟨rfl, rfl⟩

/-- C7 as amended: `validate_token` performs lookup, then the revocation
check, then the expiry check (a token being valid when
`!revoked && now < issued_at+ttl`), then the resource-containment check,
in that order, returning the error of the first failing step
(`CapabilityDenied` for an unknown id, `TokenRevoked`, `TokenExpired`,
then the scope-violation errors); for a `NetUrl` scope the containment
check requires only that the URL matches the pattern — the scope's
allowed-methods list (universally quantified here) is not consulted. -/
theorem validate_token_check_order :
    (∀ st fs now id r, List.lookup id st.tokens = none →
       validate_token st fs now id r = .error (.CapabilityDenied id)) ∧
    (∀ st fs now id r t, List.lookup id st.tokens = some t →
       t.revoked = true →
       validate_token st fs now id r = .error (.TokenRevoked id)) ∧
    (∀ st fs now id r t, List.lookup id st.tokens = some t →
       t.revoked = false → t.issued_at + t.ttl ≤ now →
       validate_token st fs now id r = .error (.TokenExpired id)) ∧
    (∀ st fs now id r t, List.lookup id st.tokens = some t →
       t.revoked = false → now < t.issued_at + t.ttl →
       (validate_token st fs now id r = .ok t ↔
          check_resource_against_scope fs t.scope r = .ok ()) ∧
       (∀ e, validate_token st fs now id r = .error e ↔
          check_resource_against_scope fs t.scope r = .error e)) ∧
    (∀ st fs now id t pat ms u, List.lookup id st.tokens = some t →
       t.revoked = false → now < t.issued_at + t.ttl →
       t.scope = .NetUrl pat ms →
       (validate_token st fs now id (.url u) = .ok t ↔
          url_matches_pattern u pat = true)) := by
  have hvalid : ∀ (t : CapabilityToken) (now : Nat), t.revoked = false →
      now < t.issued_at + t.ttl → t.is_valid now = true := by
    intro t now h1 h2
    simp [CapabilityToken.is_valid, h1, h2]
  refine ⟨?_, ?_, ?_, ?_, ?_⟩
  · intro st fs now id r h
    simp [validate_token, h]
  · intro st fs now id r t h hrev
    simp [validate_token, h, hrev]
  · intro st fs now id r t h hrev hexp
    simp [validate_token, h, hrev, CapabilityToken.is_valid,
      Nat.not_lt.mpr hexp]
  · intro st fs now id r t h hrev hlt
    constructor
    · cases hc : check_resource_against_scope fs t.scope r with
      | ok u => simp [validate_token, h, hrev, hvalid t now hrev hlt, hc]
      | error e => simp [validate_token, h, hrev, hvalid t now hrev hlt, hc]
    · intro e
      cases hc : check_resource_against_scope fs t.scope r with
      | ok u => simp [validate_token, h, hrev, hvalid t now hrev hlt, hc]
      | error e' => simp [validate_token, h, hrev, hvalid t now hrev hlt, hc]
  · intro st fs now id t pat ms u h hrev hlt hscope
    by_cases hm : url_matches_pattern u pat = true
    · simp [validate_token, h, hrev, hvalid t now hrev hlt, hscope,
        check_resource_against_scope, hm]
    · simp [validate_token, h, hrev, hvalid t now hrev hlt, hscope,
        check_resource_against_scope, hm]

/-- C7 witness: the check-order theorem applied to concrete states — an
unknown id yields `CapabilityDenied`, and for the live `NetUrl` token
`c7_token` the success of validation is exactly the URL pattern match. -/
theorem validate_token_check_order_witness :
    validate_token st0 fs2 0 "nobody" (.uiStr "x") =
      .error (.CapabilityDenied "nobody") ∧
    (validate_token c7_st fs2 5 "t1"
        (.url "https://api.example.com/v1".toList) = .ok c7_token ↔
      url_matches_pattern "https://api.example.com/v1".toList
        "https://api.example.com/*".toList = true) := by
  refine ⟨validate_token_check_order.1 st0 fs2 0 "nobody" (.uiStr "x") rfl, ?_⟩
  exact validate_token_check_order.2.2.2.2 c7_st fs2 5 "t1" c7_token
    "https://api.example.com/*".toList [] "https://api.example.com/v1".toList
    rfl rfl (by decide) rfl

/-- C8: URL pattern matching is literal equality for a pattern without a
trailing wildcard, and prefix matching for a single trailing `*`: a
pattern `P*` covers `Q` iff `Q` starts with `P`; a URL equal to a
non-wildcard whitelist entry matches; and the concrete boundary holds —
`https://evil.com/` never matches `https://api.example.com/*`. -/
theorem url_pattern_matching_spec :
    (∀ url P : Str,
       url_matches_pattern url (P ++ ['*']) = true ↔ P <+: url) ∧
    (∀ url pat : Str, pat.getLast? ≠ some '*' →
       (url_matches_pattern url pat = true ↔ url = pat)) ∧
    url_matches_pattern "https://api.example.com/v1/x".toList
      "https://api.example.com/*".toList = true ∧
    url_matches_pattern "https://evil.com/".toList
      "https://api.example.com/*".toList = false ∧
    url_matches_pattern "https://exact.com/path".toList
      "https://exact.com/path".toList = true ∧
    url_matches_pattern "https://exact.com/other".toList
      "https://exact.com/path".toList = false := by
  refine ⟨?_, ?_, rfl, rfl, rfl, rfl⟩
  · intro url P
    simp [url_matches_pattern, List.getLast?_concat, List.dropLast_concat,
      List.isPrefixOf_iff_prefix]
  · intro url pat h
    simp [url_matches_pattern, h]

/-- C8 witness: the literal-equality branch applied at a concrete
non-wildcard pattern. -/
theorem url_pattern_matching_spec_witness :
    url_matches_pattern "https://exact.com/path".toList
        "https://exact.com/path".toList = true ↔
      "https://exact.com/path".toList = "https://exact.com/path".toList :=
  url_pattern_matching_spec.2.1 "https://exact.com/path".toList
    "https://exact.com/path".toList (by decide)

/-- Complementing one byte inside the byte string changes it. -/
theorem flipByte_ne {i : Nat} {b : Bytes} (h : i < b.length) :
    flipByte i b ≠ b := by
  intro heq
  have h1 : (flipByte i b)[i]? = some ((b.getD i 0) ^^^ 255) :=
    List.getElem?_set_self h
  have h2 : b[i]? = some b[i] := List.getElem?_eq_getElem h
  have h3 : b.getD i 0 = b[i] := by
    simp [List.getD_eq_getElem?_getD, h2]
  rw [heq, h2, h3] at h1
  have h4 : b[i] ^^^ 255 = b[i] ^^^ 0 := by
    simpa [Nat.xor_zero] using (Option.some.inj h1).symm
  have h5 : (255 : Nat) = 0 := Nat.xor_right_inj.mp h4
  exact absurd h5 (by decide)

/-- C9: signing and verification both run over the single canonical
encoding `encodeManifest`: for every bridge state and manifest, a
signature from `sign_manifest` verifies; and a signature over the
canonical encoding with any byte flipped fails to verify against the
manifest. -/
theorem sign_verify_roundtrip :
    (∀ st m, verify_signature m (sign_manifest st m) = .ok true) ∧
    (∀ (st : HitlState) (m : ExecutionManifest) (i : Nat),
       i < (encodeManifest m).length →
       verify_signature m
         { manifest_id := m.id,
           signature_bytes := ed_sign st.key (flipByte i (encodeManifest m)),
           signer_public_key := st.key } = .ok false) := by
  constructor
  · intro st m
    simp [verify_signature, sign_manifest, ed_verify, ed_sign]
  · intro st m i h
    have hne := flipByte_ne (b := encodeManifest m) h
    simp [verify_signature, ed_verify, ed_sign]
    exact hne

/-- C9 witness: the byte-flip half applied to the concrete manifest
`c9_m` at byte 0 of its canonical encoding. -/
theorem sign_verify_roundtrip_witness :
    0 < (encodeManifest c9_m).length ∧
    verify_signature c9_m
      { manifest_id := c9_m.id,
        signature_bytes := ed_sign hs0.key (flipByte 0 (encodeManifest c9_m)),
        signer_public_key := hs0.key } = .ok false :=
  ⟨by decide, sign_verify_roundtrip.2 hs0 c9_m 0 (by decide)⟩

/-- Inverting `canonicalize_and_validate_read_path`: a success means the
path itself canonicalised and the canonical form lies under some
`allowed_read_dirs` entry. -/
theorem read_path_validation_ok {config : SentinelConfig}
    {fs : FileSystem} {path c : Path}
    (h : canonicalize_and_validate_read_path config fs path = .ok c) :
    canonicalize fs path = some c ∧
    ∃ d ∈ config.filesystem.allowed_read_dirs,
      List.isPrefixOf (canonicalizeOr fs d) c = true := by
  unfold canonicalize_and_validate_read_path at h
  cases hc : canonicalize fs path with
  | none => rw [hc] at h; simp at h
  | some c' =>
    rw [hc] at h
    cases hall : config.filesystem.allowed_read_dirs.any
        (fun dir => List.isPrefixOf (canonicalizeOr fs dir) c') with
    | false => simp [hall] at h
    | true =>
      simp [hall] at h
      subst h
      exact ⟨rfl, List.any_eq_true.mp hall⟩

/-- C10: every successful `fs_read` and `fs_list_dir`
re-canonicalises its path argument and re-checks containment in
`allowed_read_dirs` independently of the token's scope (the state `st`,
and with it every token and scope, is arbitrary here), and the effect is
performed on the canonical path: on success the returned bytes/entries
are those of the canonical form, which lies under some
`allowed_read_dirs` entry. -/
theorem read_ops_confined_to_allowed_dirs :
    (∀ st fs now id path bytes,
       fs_read st fs now id path = .ok bytes →
       ∃ c, canonicalize fs path = some c ∧
         (∃ d ∈ st.config.filesystem.allowed_read_dirs,
            List.isPrefixOf (canonicalizeOr fs d) c = true) ∧
         bytes = fs.content c ∧
         fs.size c ≤ st.config.filesystem.max_read_size) ∧
    (∀ st fs now id path es,
       fs_list_dir st fs now id path = .ok es →
       ∃ c, canonicalize fs path = some c ∧
         (∃ d ∈ st.config.filesystem.allowed_read_dirs,
            List.isPrefixOf (canonicalizeOr fs d) c = true) ∧
         es = fs.entries c) := by
  constructor
  · intro st fs now id path bytes h
    unfold fs_read at h
    cases hv : validate_token st fs now id (.fsPath path) with
    | error e => rw [hv] at h; simp at h
    | ok tok =>
      rw [hv] at h
      cases hr : canonicalize_and_validate_read_path st.config fs path with
      | error e => rw [hr] at h; simp at h
      | ok c =>
        rw [hr] at h
        obtain ⟨h1, h2⟩ := read_path_validation_ok hr
        by_cases hsz : st.config.filesystem.max_read_size < fs.size c
        · simp [hsz] at h
        · simp [hsz] at h
          exact ⟨c, h1, h2, h.symm, Nat.not_lt.mp hsz⟩
  · intro st fs now id path es h
    unfold fs_list_dir at h
    cases hv : validate_token st fs now id (.fsPath path) with
    | error e => rw [hv] at h; simp at h
    | ok tok =>
      rw [hv] at h
      cases hr : canonicalize_and_validate_read_path st.config fs path with
      | error e => rw [hr] at h; simp at h
      | ok c =>
        rw [hr] at h
        simp at h
        obtain ⟨h1, h2⟩ := read_path_validation_ok hr
        exact ⟨c, h1, h2, h.symm⟩

/-- C10 witness: the confinement theorem applied to a concrete
successful read of `tmp/out/r.md` under `c10_st`. -/
theorem read_ops_confined_witness :
    ∃ c, canonicalize fs1 ["tmp", "out", "r.md"] = some c ∧
      (∃ d ∈ c10_st.config.filesystem.allowed_read_dirs,
         List.isPrefixOf (canonicalizeOr fs1 d) c = true) ∧
      [104, 101, 108, 108, 111, 33, 10] = fs1.content c ∧
      fs1.size c ≤ c10_st.config.filesystem.max_read_size :=
  read_ops_confined_to_allowed_dirs.1 c10_st fs1 5 "r1"
    ["tmp", "out", "r.md"] [104, 101, 108, 108, 111, 33, 10] rfl

end Sentinel
